import Mathlib

/-
Verification development for the huecon CLI engine (cli.py, huecon.py).

The Python code is shallowly embedded as executable Lean functions:

* Python strings are Lean `String`s; the handful of Python string
  operations the code uses (`split(" ", 1)`, `lstrip`, `strip`,
  `startswith`, `endswith`, `rindex`, substring search, `split()`) are
  modelled by explicit recursive functions over `String.data`.
* Python dicts (which preserve insertion order, have unique keys, and
  overwrite in place) are modelled as association lists with an
  order-preserving `updateAssoc` and a first-match `lookupAssoc`.
* The recursive tree walks (`_parse_cli_elem`, `execute`, `complete`)
  are written with an explicit fuel parameter, structurally decreasing,
  mirroring Python's own recursion limit; fuel exhaustion is modelled as
  an uncaught `RecursionError`.  All theorems hold for every fuel value
  large enough to reach the relevant code path.
* Console output (`print`), handler invocations and process spawns are
  recorded as an event trace.  Raised exceptions (`CommandError` versus
  anything uncaught such as `TypeError`/`KeyError`) are modelled with an
  `Option Exc` result component; `CommandError` is the recoverable tier.
* Action handlers, `shutil.which`, and the Hue bridge accessors are the
  external environment: an `Env` record of functions, and plain lists of
  domain objects for the `get_fn` accessors.
-/

namespace HueCon

/-! ## Python string primitives -/

/-- Strip ASCII whitespace from the left, like Python `str.lstrip()`. -/
def pyLstrip (s : String) : String :=
  String.mk (s.data.dropWhile Char.isWhitespace)

/-- Strip ASCII whitespace from both ends, like Python `str.strip()`. -/
def pyStrip (s : String) : String :=
  String.mk (((s.data.dropWhile Char.isWhitespace).reverse.dropWhile Char.isWhitespace).reverse)

/-- Python `s.startswith(pre)`. -/
def pyStartsWith (s pre : String) : Bool :=
  pre.data.isPrefixOf s.data

/-- Split at the first space: Python `line.split(" ", 1)` preceded by a
`" " in line` test.  Returns `none` when the line has no space. -/
def splitFirstSpace : List Char → Option (List Char × List Char)
  | [] => none
  | c :: rest =>
    if c = ' ' then some ([], rest)
    else
      match splitFirstSpace rest with
      | none => none
      | some (a, b) => some (c :: a, b)

/-- Index of the last space, Python `line.rindex(" ")` guarded by `" " in line`. -/
def lastSpaceIdx : List Char → Option Nat
  | [] => none
  | c :: rest =>
    match lastSpaceIdx rest with
    | some i => some (i + 1)
    | none => if c = ' ' then some 0 else none

/-- First index of the substring `pat`, Python `s.index(pat)` guarded by `pat in s`. -/
def findSubIdx : List Char → List Char → Option Nat
  | [], pat => if pat.isEmpty then some 0 else none
  | c :: rest, pat =>
    if pat.isPrefixOf (c :: rest) then some 0
    else (findSubIdx rest pat).map (· + 1)

/-- First whitespace-separated word, Python `s.split()[0]` (with `none`
modelling the `IndexError` when there is no word at all). -/
def firstWord (s : String) : Option String :=
  match s.data.dropWhile Char.isWhitespace with
  | [] => none
  | rest => some (String.mk (rest.takeWhile (fun c => !c.isWhitespace)))

/-- Python `s.split(sep)` for a single-character separator (all occurrences). -/
def splitOnChar (sep : Char) : List Char → List (List Char)
  | [] => [[]]
  | c :: rest =>
    if c = sep then [] :: splitOnChar sep rest
    else
      match splitOnChar sep rest with
      | h :: t => (c :: h) :: t
      | [] => [[c]]

/-! ## Ordered association lists (Python dict model) -/

/-- Python `d[k] = v`: overwrite in place, else append (insertion order kept). -/
def updateAssoc {κ α : Type} [DecidableEq κ] : List (κ × α) → κ → α → List (κ × α)
  | [], k, v => [(k, v)]
  | (k0, v0) :: rest, k, v =>
    if k0 = k then (k, v) :: rest else (k0, v0) :: updateAssoc rest k v

/-- Python `d[k]` / `k in d` (unique keys, so first match is the match). -/
def lookupAssoc {κ α : Type} [DecidableEq κ] : List (κ × α) → κ → Option α
  | [], _ => none
  | (k0, v0) :: rest, k => if k0 = k then some v0 else lookupAssoc rest k

/-! ## Data model -/

/-- A Hue domain object as the argument contracts see it (`o.id`, `o.name`). -/
structure Obj where
  id : String
  name : String
  deriving DecidableEq, Repr

/-- A value bound into the context args: either a plain string (base
`ArgumentDef.process` and `_PipeArgDef` return the token itself) or a
resolved domain object (`ObjectIDArg` / `ObjectNameArg`). -/
inductive Value where
  | str (s : String)
  | obj (o : Obj)
  deriving DecidableEq, Repr

/-- `cli.ArgumentError(msg, arg_val=None)`. -/
structure ArgError where
  msg : String
  arg_val : Option String
  deriving DecidableEq, Repr

/-- `cli.Context`.  `cmd_inst` (a back reference used only for columnized
help output) is not modelled; `end` is spelled `end_flag`. -/
structure Context where
  kws : List (Option String)
  args : List (String × Value)
  end_flag : Bool
  deriving DecidableEq, Repr

/-- A fresh `Context(cmd_inst)` for one line. -/
def Context.init : Context := { kws := [], args := [], end_flag := false }

/-- `cli.ArgumentDef` and its subclasses, as a record of the four methods
plus the two name attributes.  `process` returns `Except` in place of
raising `ArgumentError`. -/
structure ArgumentDef where
  name : String
  ctx_name : String
  splitline : Context → String → String × Option String
  process : Context → String → Except ArgError Value
  complete : Context → String → List String
  help_options : Context → List (String × Option String)

/-- Observable effects of one dispatch: printed lines, handler
invocations (`_CLIAction._function(ctx)`), spawned external processes
(`subprocess.Popen` plus the data piped to its stdin), and columnized
help output. -/
inductive Event where
  | print (s : String)
  | invoke (f : String)
  | spawn (cmd : String) (input : String)
  | columnize (vals : List String)
  deriving DecidableEq, Repr

def Event.isPrint : Event → Bool
  | Event.print _ => true
  | _ => false

/-- Raised exceptions: `CommandError` (caught by `_Cmd.onecmd`) versus
everything else, which propagates out of the command loop uncaught. -/
inductive Exc where
  | cmdError (msg : String)
  | uncaught (msg : String)
  deriving DecidableEq, Repr

/-- The compiled command tree: `_CLIList` (keyword `None` is the absence
sentinel), `_CLIAction` (`function` is `None` for the synthetic help
entry), `_CLIArgument`, and `_PipeAction` (whose help string is the fixed
"Pipe output to this command" set in its constructor). -/
inductive CLIElem where
  | list (helpstr : String) (elems : List (Option String × CLIElem))
  | action (helpstr : String) (function : Option String)
  | argument (helpstr : String) (elem : CLIElem) (argdef : ArgumentDef)
  | pipeAction (inner : CLIElem)

/-- The `helpstr` attribute of a tree node. -/
def CLIElem.helpstr : CLIElem → String
  | CLIElem.list h _ => h
  | CLIElem.action h _ => h
  | CLIElem.argument h _ _ => h
  | CLIElem.pipeAction _ => "Pipe output to this command"

/-- The external environment: `shutil.which` (is this executable on the
search path?) and the bound action handlers (name, context in; mutated
context and printed lines out). -/
structure Env where
  which : String → Bool
  handler : String → Context → Context × List String

/-! ## Argument contracts -/

/-- Default `ArgumentDef.splitline`: split on the first space
(`line.split(" ", 1)` when `line and " " in line`, else `(line, None)`). -/
def default_splitline (_ctx : Context) (line : String) : String × Option String :=
  match splitFirstSpace line.data with
  | some (a, b) => (String.mk a, some (String.mk b))
  | none => (line, none)

/-- The base `cli.ArgumentDef(name, ctx_name)`: identity `process`, no
completions. -/
def baseArgumentDef (name : String) (ctx_name : Option String) : ArgumentDef :=
  { name := name
    ctx_name := match ctx_name with | some c => c | none => name
    splitline := default_splitline
    process := fun _ arg => Except.ok (Value.str arg)
    complete := fun _ _ => []
    help_options := fun _ => [] }

/-- `cli._PipeArgDef`: the whole remaining line is one opaque token. -/
def PipeArgDef : ArgumentDef :=
  { name := "shell-cmd"
    ctx_name := "shell-cmd"
    splitline := fun _ line => (line, none)
    process := fun _ arg => Except.ok (Value.str arg)
    complete := fun _ _ => []
    help_options := fun _ => [] }

/-- `huecon.ObjectIDArg.process`: `{o.id: o for o in get_fn()}[arg]`
(dict comprehension, so a duplicate id resolves to the last object). -/
def objectIdProcess (get_fn : List Obj) (nm : String) (_ctx : Context) (arg : String) :
    Except ArgError Value :=
  match get_fn.reverse.find? (fun o => o.id == arg) with
  | some o => Except.ok (Value.obj o)
  | none => Except.error { msg := "Unknown " ++ nm ++ " ID", arg_val := none }

/-- `huecon.ObjectIDArg(get_fn, arg_name)` (name `arg_name + "-id"`,
context name `arg_name`). -/
def ObjectIDArg (get_fn : List Obj) (arg_name : String) : ArgumentDef :=
  { name := arg_name ++ "-id"
    ctx_name := arg_name
    splitline := default_splitline
    process := objectIdProcess get_fn (arg_name ++ "-id")
    complete := fun _ arg => (get_fn.map Obj.id).filter (fun i => pyStartsWith i arg)
    help_options := fun _ => get_fn.map (fun o => (o.id, some o.name)) }

/-- `huecon.ObjectNameArg.splitline`: if the token starts with a quote,
scan for the first closing-quote-then-space; else fall back to the
default split. -/
def objectNameSplitline (ctx : Context) (arg : String) : String × Option String :=
  match arg.data with
  | '"' :: tail =>
    (match findSubIdx tail ['"', ' '] with
     | none => (arg, none)
     | some e =>
       (String.mk (arg.data.take (e + 2)), some (pyLstrip (String.mk (arg.data.drop (e + 2))))))
  | _ => default_splitline ctx arg

/-- `huecon.ObjectNameArg.process`: strip surrounding quotes, then
resolve against `{o.name: o for o in get_fn()}`; on failure the raised
`ArgumentError` carries the stripped value as `arg_val`. -/
def objectNameProcess (get_fn : List Obj) (nm : String) (_ctx : Context) (arg : String) :
    Except ArgError Value :=
  let arg2 :=
    if arg.data.length > 1 && arg.data.head? == some '"' && arg.data.getLast? == some '"' then
      String.mk (arg.data.drop 1).dropLast
    else arg
  match get_fn.reverse.find? (fun o => o.name == arg2) with
  | some o => Except.ok (Value.obj o)
  | none => Except.error { msg := "Unknown " ++ nm ++ " name", arg_val := some arg2 }

/-- `huecon.ObjectNameArg(get_fn, arg_name)` (name `arg_name + "-name"`,
context name `arg_name`; completions are pre-quoted names). -/
def ObjectNameArg (get_fn : List Obj) (arg_name : String) : ArgumentDef :=
  { name := arg_name ++ "-name"
    ctx_name := arg_name
    splitline := objectNameSplitline
    process := objectNameProcess get_fn (arg_name ++ "-name")
    complete := fun _ arg =>
      (get_fn.map (fun o => "\"" ++ o.name ++ "\"")).filter (fun q => pyStartsWith q arg)
    help_options := fun _ => [] }

/-! ## Definition compiler (`Interface._parse_cli_elem`) -/

/-- The declarative tree: a nested dict or a bare action-name string. -/
inductive CLIDef where
  | dict (entries : List (String × CLIDef))
  | str (s : String)

/-- The post-loop step of the dict branch (cli.py lines 124-131): whenever
the list has an absence-sentinel (`None`) entry, a `"|"` entry wrapping it
in a pipe argument is added.  Note the code tests only `None in elems`;
`apply_pipe` is not consulted here. -/
def finish_list (helpstr : String) (elems : List (Option String × CLIElem)) : CLIElem :=
  match lookupAssoc elems none with
  | some noneElem =>
    CLIElem.list helpstr (updateAssoc elems (some "|")
      (CLIElem.argument (noneElem.helpstr ++ " (pipe output to shell command)")
        (CLIElem.pipeAction noneElem) PipeArgDef))
  | none => CLIElem.list helpstr elems

/-- `Interface._parse_cli_elem`.  `arg_defs` is the argument-type
registry, `actions` the set of handler names for which `hasattr(self,
contents)` holds.  Compile failures (`cli.Error`, and the `ValueError`
Python's 2-target unpacking raises on a key with two colons) are
`Except.error` messages. -/
def parse_cli_elem (arg_defs : List (String × ArgumentDef)) (actions : List String) :
    Nat → String → String → CLIDef → Bool → Except String CLIElem
  | 0, _, _, _, _ => Except.error "RecursionError"
  | fuel+1, parent_name, helpstr, contents, apply_pipe =>
    -- one iteration of the keyword-list loop: split "keyword:help", map
    -- the literal "None" to the absence sentinel, strip a trailing "|"
    -- (pipe-eligibility marker), compile the child
    let parseEntry : List (Option String × CLIElem) → String × CLIDef →
        Except String (List (Option String × CLIElem)) := fun acc kv =>
      if !kv.1.data.contains ':' then
        Except.error ("Missing help string for " ++ kv.1 ++ " in " ++ parent_name)
      else
        match splitOnChar ':' kv.1.data with
        | [n, h] =>
          let ch_name0 := String.mk n
          let nmp : Option String × Bool :=
            if ch_name0 = "None" then (none, apply_pipe)
            else if ch_name0.data.getLast? = some '|' then
              (some (String.mk ch_name0.data.dropLast), true)
            else (some ch_name0, apply_pipe)
          do
            let child ← parse_cli_elem arg_defs actions fuel
              (match nmp.1 with | some s => s | none => "None") (String.mk h) kv.2 nmp.2
            Except.ok (updateAssoc acc nmp.1 child)
        | _ => Except.error "ValueError: too many values to unpack"
    match contents with
    | CLIDef.dict [(key, value)] =>
      if pyStartsWith key "<" then
        -- single bracketed key: variable argument
        if !key.data.contains ':' then
          Except.error ("Missing help string for " ++ key ++ " in " ++ parent_name)
        else
          match splitOnChar ':' key.data with
          | [a, h] =>
            let arg_type := String.mk a
            (match lookupAssoc arg_defs arg_type with
             | none => Except.error ("No arg def for " ++ arg_type)
             | some ad => do
               let child ← parse_cli_elem arg_defs actions fuel arg_type (String.mk h) value
                 apply_pipe
               Except.ok (CLIElem.argument helpstr child ad))
          | _ => Except.error "ValueError: too many values to unpack"
      else do
        let elems ← [(key, value)].foldlM parseEntry []
        Except.ok (finish_list helpstr elems)
    | CLIDef.dict entries => do
      let elems ← entries.foldlM parseEntry []
      Except.ok (finish_list helpstr elems)
    | CLIDef.str s =>
      if actions.contains s then
        let action := CLIElem.action helpstr (some s)
        if !apply_pipe then Except.ok action
        else
          Except.ok (CLIElem.list helpstr
            [(none, action),
             (some "|", CLIElem.argument (helpstr ++ " (pipe output to shell command)")
               (CLIElem.pipeAction action) PipeArgDef)])
      else Except.error ("Cannot find action function " ++ s)

/-- `Interface._parse_cli`: compile the root. -/
def parse_cli (arg_defs : List (String × ArgumentDef)) (actions : List String) (fuel : Nat)
    (cli_def : CLIDef) : Except String CLIElem :=
  parse_cli_elem arg_defs actions fuel "<root>" "Main commands" cli_def false

/-! ## Dispatcher (`execute`) -/

/-- `_CLIList.splitline` (static): split on the first space and `lstrip`
the remainder. -/
def clist_splitline (line : String) : String × Option String :=
  match splitFirstSpace line.data with
  | some (a, b) => (String.mk a, some (pyLstrip (String.mk b)))
  | none => (line, none)

/-- `_CLIList.get_matches`.  From `execute`/`complete` this is only ever
called with a non-`None` string; the `none` arm mirrors the
`text is None and None in self._elems` fast path. -/
def get_matches (elems : List (Option String × CLIElem)) (text : Option String) :
    List (Option String) :=
  match text with
  | none => if (lookupAssoc elems none).isSome then [none] else []
  | some t =>
    (elems.map Prod.fst).filter (fun k =>
      match k with
      | none => false
      | some c => pyStartsWith c t)

/-- Left-justify to width `n`, Python `"{:{}}".format(s, n)`. -/
def ljust (s : String) (n : Nat) : String :=
  s ++ String.mk (List.replicate (n - s.data.length) ' ')

/-- `_CLIList.display_help` output.  (Python's `max` over the non-`None`
keys raises `ValueError` for a keyword-less list; folding from 0 here is
only reachable for trees no real definition produces.) -/
def display_help (helpstr : String) (elems : List (Option String × CLIElem)) : List Event :=
  let maxlen0 := ((elems.map Prod.fst).filterMap id).foldl (fun m c => max m c.data.length) 0
  let withBr : Nat × List Event :=
    match lookupAssoc elems none with
    | some e =>
      (max maxlen0 4,
       [Event.print ("  " ++ ljust "<br>" (max maxlen0 4) ++ " - " ++ e.helpstr)])
    | none => (maxlen0, [])
  let rows := elems.filterMap (fun p =>
    match p.1 with
    | some c => some (c, p.2)
    | none => none)
  let rows := rows.mergeSort (fun a b => a.1 ≤ b.1)
  [Event.print helpstr, Event.print "\nOptions:"] ++ withBr.2 ++
    rows.map (fun p => Event.print ("  " ++ ljust p.1 withBr.1 ++ " - " ++ p.2.helpstr))

/-- `_CLIArgument.display_help` output (the columnized branch is recorded
as a `columnize` event rather than laid out). -/
def arg_display_help (argdef : ArgumentDef) (elemHelp : String) (ctx : Context) : List Event :=
  let head := [Event.print ("<" ++ argdef.name ++ "> - " ++ elemHelp)]
  match argdef.help_options ctx with
  | [] => head
  | (v0, h0) :: rest =>
    match h0 with
    | some _ =>
      let options := (v0, h0) :: rest
      let maxlen := options.foldl (fun m p => max m p.1.data.length) 0
      head ++ [Event.print "\nOptions:"] ++
        options.map (fun p =>
          Event.print ("  " ++ ljust p.1 maxlen ++ " - " ++
            (match p.2 with | some hh => hh | none => "")))
    | none => head ++ [Event.print "\nOptions:", Event.columnize (((v0, h0) :: rest).map Prod.fst)]

/-- `_CLIAction.execute`'s final arm: call the bound handler (invoking
`None`, as the synthetic help action does, raises `TypeError`). -/
def run_action (env : Env) (fn : Option String) (ctx : Context) :
    Context × List Event × Option Exc :=
  match fn with
  | none => (ctx, [], some (Exc.uncaught "TypeError: \x27NoneType\x27 object is not callable"))
  | some f =>
    let r := env.handler f ctx
    (r.1, Event.invoke f :: r.2.map Event.print, none)

/-- The captured stdout of an execution: each printed line plus the
newline `print` appends. -/
def buf_of (evs : List Event) : String :=
  evs.foldl (fun acc ev =>
    match ev with
    | Event.print s => acc ++ s ++ "\n"
    | _ => acc) ""

/-- `_PipeAction._run_pipe` after the wrapped execution: its prints were
captured into the buffer (so they are dropped from the visible trace);
then `shutil.which(cmd.split()[0])` is consulted before `Popen`, raising
a recoverable `CommandError` when the executable does not resolve.  A
successful check spawns the process and pipes the buffer to it.  (The
worker thread always completes in this model; `BrokenPipeError`
re-raising is timing-dependent behaviour outside the embedding.) -/
def pipe_post (env : Env) (r : Context × List Event × Option Exc) :
    Context × List Event × Option Exc :=
  let ctx := r.1
  let buf := buf_of r.2.1
  let kept := r.2.1.filter (fun ev => !ev.isPrint)
  match r.2.2 with
  | some e => (ctx, kept, some e)
  | none =>
    match lookupAssoc ctx.args "shell-cmd" with
    | none => (ctx, kept, some (Exc.uncaught "KeyError: shell-cmd"))
    | some (Value.obj _) => (ctx, kept, some (Exc.uncaught "AttributeError: split"))
    | some (Value.str cmd) =>
      match firstWord cmd with
      | none => (ctx, kept, some (Exc.uncaught "IndexError: list index out of range"))
      | some w =>
        if env.which w then (ctx, kept ++ [Event.spawn cmd buf], none)
        else (ctx, kept, some (Exc.cmdError ("Shell command \x27" ++ w ++ "\x27 not found")))

/-- The `execute` protocol over the tree (`_CLIList.execute`,
`_CLIAction.execute`, `_CLIArgument.execute`, and `_PipeAction`, which
inherits `_CLIAction.execute` with `_run_pipe` as its function). -/
def execute (env : Env) : Nat → CLIElem → Context → Option String →
    Context × List Event × Option Exc
  | 0, _, ctx, _ => (ctx, [], some (Exc.uncaught "RecursionError"))
  | fuel+1, CLIElem.list helpstr elems, ctx, line =>
    let cr : Option String × Option String :=
      match line with
      | none => (none, none)
      | some l =>
        let p := clist_splitline l
        (if p.1 = "" then none else some p.1, p.2)
    if cr.1 = some "?" then (ctx, display_help helpstr elems, none)
    else
      match lookupAssoc elems cr.1 with
      | some e => execute env fuel e { ctx with kws := ctx.kws ++ [cr.1] } cr.2
      | none =>
        match cr.1 with
        | none => (ctx, [Event.print "!! Missing keyword"], none)
        | some c =>
          match get_matches elems (some c) with
          | [] => (ctx, [Event.print ("!! Unknown keyword: " ++ c)], none)
          | [m] =>
            (match lookupAssoc elems m with
             | some e => execute env fuel e { ctx with kws := ctx.kws ++ [m] } cr.2
             | none => (ctx, [], some (Exc.uncaught "KeyError")))
          | _ :: _ :: _ => (ctx, [Event.print ("!! Ambiguous keyword: " ++ c)], none)
  | _fuel+1, CLIElem.action helpstr fn, ctx, line =>
    match line with
    | none => run_action env fn ctx
    | some l =>
      if l = "" then run_action env fn ctx
      else if pyStrip l = "?" then (ctx, [Event.print helpstr], none)
      else (ctx, [Event.print ("!! Unexpected input: " ++ l)], none)
  | fuel+1, CLIElem.argument _helpstr elem argdef, ctx, line =>
    match line with
    | none => (ctx, [Event.print ("!! Missing <" ++ argdef.name ++ "> argument")], none)
    | some l =>
      if l = "" then (ctx, [Event.print ("!! Missing <" ++ argdef.name ++ "> argument")], none)
      else if pyStrip l = "?" then (ctx, arg_display_help argdef elem.helpstr ctx, none)
      else
        let ar := argdef.splitline ctx l
        match argdef.process ctx ar.1 with
        | Except.error e =>
          (ctx, [], some (Exc.cmdError ("Invalid " ++ argdef.name ++ " argument \x27" ++
            (match e.arg_val with | some v => v | none => ar.1) ++ "\x27: " ++ e.msg)))
        | Except.ok v =>
          execute env fuel elem { ctx with args := updateAssoc ctx.args argdef.ctx_name v } ar.2
  | fuel+1, CLIElem.pipeAction inner, ctx, line =>
    match line with
    | none => pipe_post env (execute env fuel inner ctx none)
    | some l =>
      if l = "" then pipe_post env (execute env fuel inner ctx none)
      else if pyStrip l = "?" then (ctx, [Event.print "Pipe output to this command"], none)
      else (ctx, [Event.print ("!! Unexpected input: " ++ l)], none)

/-! ## Completion engine (`complete`) -/

/-- The `fixup` closure in `_CLIArgument.complete`: keep only the part of
the candidate after the last space already typed, then append a space. -/
def fixup_txt (line txt : String) : String :=
  match lastSpaceIdx line.data with
  | some i => String.mk (txt.data.drop (i + 1)) ++ " "
  | none => txt ++ " "

/-- The `complete` protocol over the tree.  `_CLIBase.complete` (actions,
pipe actions) returns `None`; a `None` result is also what a `List`
yields when the prefix before a remainder is not uniquely resolvable.
No completion path prints anything; only the context can be mutated. -/
def complete (env : Env) : Nat → CLIElem → Context → String →
    Context × Option (List String)
  | 0, _, ctx, _ => (ctx, none)
  | fuel+1, CLIElem.list _helpstr elems, ctx, line =>
    let p := clist_splitline line
    match p.2 with
    | some rem =>
      (match get_matches elems (some p.1) with
       | [m] =>
         (match lookupAssoc elems m with
          | some e => complete env fuel e { ctx with kws := ctx.kws ++ [some p.1] } rem
          | none => (ctx, none))
       | _ => (ctx, none))
    | none =>
      let results := (elems.map Prod.fst).filterMap (fun k =>
        match k with
        | some c => if pyStartsWith c p.1 then some (c ++ " ") else none
        | none => none)
      let results :=
        if p.1 = "" && (lookupAssoc elems none).isSome then results ++ [""] else results
      (ctx, some results)
  | fuel+1, CLIElem.argument _helpstr elem argdef, ctx, line =>
    let p := argdef.splitline ctx line
    match p.2 with
    | some rem =>
      let ctx2 :=
        match argdef.process ctx p.1 with
        | Except.ok v => { ctx with args := updateAssoc ctx.args argdef.ctx_name v }
        | Except.error _ => ctx
      complete env fuel elem ctx2 rem
    | none => (ctx, some ((argdef.complete ctx line).map (fixup_txt line)))
  | _+1, CLIElem.action _ _, ctx, _ => (ctx, none)
  | _+1, CLIElem.pipeAction _, ctx, _ => (ctx, none)

/-! ## The command prompt (`_Cmd`) -/

/-- `_CLIList.add_keyword` (used once, to install the synthetic `help`). -/
def add_keyword : CLIElem → String → CLIElem → CLIElem
  | CLIElem.list h elems, kw, e => CLIElem.list h (updateAssoc elems (some kw) e)
  | other, _, _ => other

/-- The synthetic help entry `_Cmd.__init__` installs: an action bound to
`None`, meant to be shadowed by the `do_help` hook. -/
def help_action : CLIElem := CLIElem.action "Display command help" none

/-- `_Cmd.__init__`'s tree mutation. -/
def install_help (cl : CLIElem) : CLIElem := add_keyword cl "help" help_action

/-- `identchars` after `_Cmd.__init__` appends `"|"`. -/
def identchar (c : Char) : Bool := c.isAlpha || c.isDigit || c = '_' || c = '|'

/-- `cmd.Cmd.parseline` as inherited by `_Cmd` (no `do_shell`, so a
leading `!` yields no command; a leading `?` is rewritten to `help `). -/
def parseline (line : String) : Option String × Option String × String :=
  let l := pyStrip line
  if l = "" then (none, none, l)
  else
    match l.data with
    | '!' :: _ => (none, none, l)
    | _ =>
      let l2 := match l.data with
        | '?' :: rest => "help " ++ String.mk rest
        | _ => l
      let ident := l2.data.takeWhile identchar
      (some (String.mk ident), some (pyStrip (String.mk (l2.data.drop ident.length))), l2)

/-- `_Cmd.do_help`: rewrite to a `?` dispatch over the same tree.  Note
this path has no `CommandError` handler of its own. -/
def do_help (env : Env) (fuel : Nat) (cl : CLIElem) (arg : String) :
    Context × List Event × Option Exc :=
  if pyStrip arg = "" then execute env fuel cl Context.init (some "?")
  else if arg = "help" then execute env fuel cl Context.init (some "help ?")
  else execute env fuel cl Context.init (some (arg ++ " ?"))

/-- The tree-dispatch arm of `_Cmd.onecmd`: a fresh context, with
`CommandError` caught and printed as `Error: ...`. -/
def dispatch_line (env : Env) (fuel : Nat) (cl : CLIElem) (line : String) :
    Context × List Event × Option Exc :=
  let r := execute env fuel cl Context.init (some line)
  match r.2.2 with
  | some (Exc.cmdError m) => (r.1, r.2.1 ++ [Event.print ("Error: " ++ m)], none)
  | _ => r

/-- `_Cmd.onecmd`: blank lines do nothing; a parsed command word with a
matching `do_<cmd>` attribute (`help`, `EOF`) is intercepted before tree
dispatch; everything else goes to the tree. -/
def onecmd (env : Env) (fuel : Nat) (cl : CLIElem) (line : String) :
    Context × List Event × Option Exc :=
  let pl := parseline line
  if pyStrip line = "" then (Context.init, [], none)
  else
    match pl.1 with
    | some c =>
      if c = "help" then do_help env fuel cl (match pl.2.1 with | some a => a | none => "")
      else if c = "EOF" then (Context.init, [Event.print ""], none)
      else dispatch_line env fuel cl line
    | none => dispatch_line env fuel cl line


/-! ## Shared verification environment and classifiers -/

/-- A concrete environment: nothing resolves on the search path and every
handler is a silent no-op. -/
def env0 : Env := { which := fun _ => false, handler := fun _ c => (c, []) }

/-- Is this event the engine's unknown-keyword report? -/
def unknown_kw_print (ev : Event) : Bool :=
  match ev with
  | Event.print s => pyStartsWith s "!! Unknown keyword: "
  | _ => false

/-- Is this event the engine's unexpected-input report? -/
def unexpected_input_print (ev : Event) : Bool :=
  match ev with
  | Event.print s => pyStartsWith s "!! Unexpected input"
  | _ => false

/-- Is this an invalid-argument `CommandError`? -/
def invalid_arg_exc : Option Exc → Bool
  | some (Exc.cmdError m) => pyStartsWith m "Invalid "
  | _ => false

/-- Is this event an external process spawn? -/
def is_spawn : Event → Bool
  | Event.spawn _ _ => true
  | _ => false

/-- A dispatch result free of unknown-keyword reports and of
invalid-argument command errors. -/
def accepts (r : Context × List Event × Option Exc) : Prop :=
  (∀ ev ∈ r.2.1, unknown_kw_print ev = false) ∧ invalid_arg_exc r.2.2 = false

/-- Handlers that do not themselves print lines formatted like the
engine's unknown-keyword report. -/
def clean_handlers (env : Env) : Prop :=
  ∀ f c, ∀ s ∈ (env.handler f c).2, pyStartsWith s "!! Unknown keyword: " = false

/-! ## Helper lemmas -/

theorem str_mk_data (s : String) : String.mk s.data = s := by
  cases s
  rfl

theorem splitFirstSpace_eq_none (l : List Char) (h : ' ' ∉ l) :
    splitFirstSpace l = none := by
  induction l with
  | nil => rfl
  | cons c rest ih =>
    simp only [List.mem_cons, not_or] at h
    have hcs : ¬c = ' ' := fun hc => h.1 hc.symm
    simp [splitFirstSpace, hcs, ih h.2]

theorem splitFirstSpace_append (a b : List Char) (h : ' ' ∉ a) :
    splitFirstSpace (a ++ ' ' :: b) = some (a, b) := by
  induction a with
  | nil => simp [splitFirstSpace]
  | cons c rest ih =>
    simp only [List.mem_cons, not_or] at h
    have hcs : ¬c = ' ' := fun hc => h.1 hc.symm
    simp [splitFirstSpace, hcs, ih h.2]

theorem pyLstrip_empty : pyLstrip "" = "" := rfl

theorem clist_splitline_nospace (s : String) (h : ' ' ∉ s.data) :
    clist_splitline s = (s, none) := by
  simp [clist_splitline, splitFirstSpace_eq_none s.data h]

theorem data_append_space (a b : String) :
    (a ++ " " ++ b).data = a.data ++ ' ' :: b.data := by
  rw [String.data_append, String.data_append]
  have h1 : (" " : String).data = [' '] := rfl
  rw [h1, List.append_assoc]
  rfl

theorem clist_splitline_append (a b : String) (h : ' ' ∉ a.data) :
    clist_splitline (a ++ " " ++ b) = (a, some (pyLstrip b)) := by
  simp [clist_splitline, data_append_space, splitFirstSpace_append a.data b.data h,
    str_mk_data]

theorem clist_splitline_append_space (a : String) (h : ' ' ∉ a.data) :
    clist_splitline (a ++ " ") = (a, some "") := by
  have hd : (a ++ " ").data = a.data ++ ' ' :: [] := by
    rw [String.data_append]
  simp [clist_splitline, hd, splitFirstSpace_append a.data [] h, str_mk_data,
    pyLstrip_empty]

theorem lookupAssoc_update_self {κ α : Type} [DecidableEq κ]
    (l : List (κ × α)) (k : κ) (v : α) :
    lookupAssoc (updateAssoc l k v) k = some v := by
  induction l with
  | nil => simp [updateAssoc, lookupAssoc]
  | cons p rest ih =>
    obtain ⟨k0, v0⟩ := p
    by_cases hk : k0 = k
    · simp [updateAssoc, lookupAssoc, hk]
    · simp [updateAssoc, lookupAssoc, hk, ih]

theorem lookupAssoc_isSome_of_mem {κ α : Type} [DecidableEq κ]
    (l : List (κ × α)) (k : κ) (h : k ∈ l.map Prod.fst) :
    (lookupAssoc l k).isSome := by
  induction l with
  | nil => simp at h
  | cons p rest ih =>
    obtain ⟨k0, v0⟩ := p
    by_cases hk : k0 = k
    · simp [lookupAssoc, hk]
    · simp only [List.map_cons, List.mem_cons] at h
      rcases h with h | h
      · exact absurd h.symm hk
      · simp [lookupAssoc, hk, ih h]

/-! ## Claim C1: pipe-wrapper synthesis and the pipe-eligibility marker -/

/-- A declarative list with an absence-sentinel child and no pipe marker
anywhere: per the code comment and the spec, no pipe option should be
synthesized here. -/
def c1Def : CLIDef := CLIDef.dict [("None:h2", CLIDef.str "act")]

/-- Claim C1: compiling a List with an absence-sentinel child whose
branch carries no pipe-eligibility marker nevertheless synthesizes the
`"|"` pipe-wrapper entry — `_parse_cli_elem` tests only `None in elems`
and ignores `apply_pipe`, contradicting its own comment ("and we have
apply pipe") and the spec. -/
theorem c1_pipe_added_without_marker :
    parse_cli [] ["act"] 10 c1Def =
      Except.ok (CLIElem.list "Main commands"
        [(none, CLIElem.action "h2" (some "act")),
         (some "|", CLIElem.argument "h2 (pipe output to shell command)"
           (CLIElem.pipeAction (CLIElem.action "h2" (some "act"))) PipeArgDef)]) := rfl

/-! ## Claim C2: the spec's `show lights extra` example -/

/-- The spec's example tree with the absence sentinel spelled the way the
compiler actually accepts it (`"None"`; the literal `"<none>"` key is
compiled as an argument-type reference and fails to resolve). -/
def c2Def : CLIDef :=
  CLIDef.dict [("show:desc", CLIDef.dict [("lights:desc",
    CLIDef.dict [("None:desc", CLIDef.str "show_lights")])])]

def show_lights_action : CLIElem := CLIElem.action "desc" (some "show_lights")

/-- What `c2Def` compiles to (note the synthesized `"|"` entry). -/
def c2Tree : CLIElem :=
  CLIElem.list "Main commands"
    [(some "show", CLIElem.list "desc"
      [(some "lights", CLIElem.list "desc"
        [(none, show_lights_action),
         (some "|", CLIElem.argument "desc (pipe output to shell command)"
           (CLIElem.pipeAction show_lights_action) PipeArgDef)])])]

theorem c2_parse : parse_cli [] ["show_lights"] 10 c2Def = Except.ok c2Tree := rfl

/-- Claim C2 counterexample: executing `show lights extra` on the spec's
example tree does NOT report an unexpected-input error (the extra token
is consumed as a keyword candidate by the `lights` List, which reports
`!! Unknown keyword: extra` instead); moreover the tree as literally
written in the spec (`"<none>"`) does not even compile without a
registered `<none>` argument type. -/
theorem c2_counterexample :
    ((execute env0 20 c2Tree Context.init (some "show lights extra")).2.1.all
      (fun ev => !unexpected_input_print ev)) = true
    ∧ parse_cli [] ["show_lights"] 10
        (CLIDef.dict [("show:desc", CLIDef.dict [("lights:desc",
          CLIDef.dict [("<none>:desc", CLIDef.str "show_lights")])])])
      = Except.error "No arg def for <none>" := ⟨by decide, rfl⟩

/-- Claim C2 amended: for the spec's example tree (absence sentinel
spelled `None`), executing `show lights extra` reports the
unknown-keyword error `!! Unknown keyword: extra` and does not invoke the
`show_lights` handler. -/
theorem c2_amended :
    execute env0 20 c2Tree Context.init (some "show lights extra") =
      ({ kws := [some "show", some "lights"], args := [], end_flag := false },
       [Event.print "!! Unknown keyword: extra"], none)
    ∧ ((execute env0 20 c2Tree Context.init (some "show lights extra")).2.1.all
        (fun ev => ev != Event.invoke "show_lights")) = true := ⟨rfl, by decide⟩

/-! ## Claim C3: completion round-trip -/

def c3List : CLIElem := CLIElem.list "h" [(some "show", CLIElem.action "ha" (some "act"))]

/-- Claim C3 counterexample: `complete` offers `"show "` for the partial
input `"sh"`, but appending that completion to the partial input
(`"sh" ++ "show " = "shshow "`) and re-submitting it to the same node is
rejected with an unknown-keyword error.  (Completion strings replace the
word being completed — they are not appended to it.) -/
theorem c3_counterexample :
    ("show " ∈ ((complete env0 5 c3List Context.init "sh").2.getD []))
    ∧ execute env0 5 c3List Context.init (some ("sh" ++ "show ")) =
        (Context.init, [Event.print "!! Unknown keyword: shshow"], none) :=
  ⟨by decide, by decide⟩

/-! ## Claim C4: unique-prefix dispatch -/

def c4Elems : List (Option String × CLIElem) := [(some "a b", CLIElem.action "x" (some "f"))]

def c4List : CLIElem := CLIElem.list "h" c4Elems

/-- Claim C4 counterexample: with a keyword containing a space, the typed
token `"a"` is not an exact keyword and is a prefix of exactly one
keyword (`"a b"`), yet dispatch is NOT identical to typing that keyword
in full — the full line `"a b x"` re-splits at the first space, so its
remainder differs. -/
theorem c4_counterexample :
    lookupAssoc c4Elems (some "a") = none
    ∧ get_matches c4Elems (some "a") = [some "a b"]
    ∧ execute env0 5 c4List Context.init (some "a x")
        ≠ execute env0 5 c4List Context.init (some "a b x") :=
  ⟨rfl, by decide, by decide⟩

/-! ## Claim C8: quoted-name splitting -/

/-- Claim C8: the quoted-name contract splits `'"Living Room" on'` into
the token `'"Living Room"'` and remainder `"on"`, and splits
`'"Living Room"'` (no trailing content) into the full text with no
remainder. -/
theorem c8_quoted_splitline :
    (ObjectNameArg [] "light").splitline Context.init "\"Living Room\" on"
        = ("\"Living Room\"", some "on")
    ∧ (ObjectNameArg [] "light").splitline Context.init "\"Living Room\""
        = ("\"Living Room\"", none) :=
  ⟨by decide, by decide⟩

/-! ## Claim C5: invalid-argument message carries the raw token -/

/-- Claim C5: when the contract's validation rejects the split-off token
by raising an argument error, `_CLIArgument.execute` aborts with a
recoverable `CommandError` whose message carries the original raw token,
except that a more specific `arg_val` supplied in the failure appears in
its place. -/
theorem c5_invalid_argument_message (env : Env) (fuel : Nat) (h : String) (elem : CLIElem)
    (argdef : ArgumentDef) (ctx : Context) (l arg : String) (rem : Option String)
    (e : ArgError)
    (hl : l ≠ "") (hq : pyStrip l ≠ "?")
    (hsplit : argdef.splitline ctx l = (arg, rem))
    (hproc : argdef.process ctx arg = Except.error e) :
    execute env (fuel+1) (CLIElem.argument h elem argdef) ctx (some l) =
      (ctx, [], some (Exc.cmdError ("Invalid " ++ argdef.name ++ " argument \x27" ++
        (match e.arg_val with | some v => v | none => arg) ++ "\x27: " ++ e.msg))) := by
  simp [execute, hl, hq, hsplit, hproc]

/-- The spec's C5 example contract: live id set is A and B. -/
def c5ArgDef : ArgumentDef := ObjectIDArg [⟨"A", "Alight"⟩, ⟨"B", "Blight"⟩] "light"

/-- Witness for C5: the token `C` fails validation and the reported
message contains the literal text `C`. -/
theorem c5_witness :
    execute env0 1 (CLIElem.argument "h" (CLIElem.action "h" (some "f")) c5ArgDef)
      Context.init (some "C") =
      (Context.init, [],
       some (Exc.cmdError "Invalid light-id argument \x27C\x27: Unknown light-id ID")) :=
  c5_invalid_argument_message env0 0 "h" (CLIElem.action "h" (some "f")) c5ArgDef
    Context.init "C" "C" none { msg := "Unknown light-id ID", arg_val := none }
    (by decide) (by decide) rfl rfl

/-! ## Claim C10: validation failure leaves the context untouched -/

/-- Claim C10: if validation of the token fails during `execute`, the
context's args mapping is left unchanged by the Argument node, no events
are produced (in particular the wrapped child is never executed), and the
dispatch aborts with a raised error. -/
theorem c10_validation_failure_no_binding (env : Env) (fuel : Nat) (h : String)
    (elem : CLIElem) (argdef : ArgumentDef) (ctx : Context) (l arg : String)
    (rem : Option String) (e : ArgError)
    (hl : l ≠ "") (hq : pyStrip l ≠ "?")
    (hsplit : argdef.splitline ctx l = (arg, rem))
    (hproc : argdef.process ctx arg = Except.error e) :
    (execute env (fuel+1) (CLIElem.argument h elem argdef) ctx (some l)).1 = ctx
    ∧ (execute env (fuel+1) (CLIElem.argument h elem argdef) ctx (some l)).2.1 = []
    ∧ (execute env (fuel+1) (CLIElem.argument h elem argdef) ctx (some l)).2.2.isSome = true := by
  simp [execute, hl, hq, hsplit, hproc]

/-- A quoted-name contract over one live object. -/
def c10ArgDef : ArgumentDef := ObjectNameArg [⟨"1", "Kitchen"⟩] "light"

/-- Witness for C10: `"X" on` fails name validation; the context is
unchanged, nothing is printed and the child (which would have received
`on`) never runs. -/
theorem c10_witness :
    (execute env0 1 (CLIElem.argument "h" (CLIElem.action "c" (some "g")) c10ArgDef)
      Context.init (some "\"X\" on")).1 = Context.init
    ∧ (execute env0 1 (CLIElem.argument "h" (CLIElem.action "c" (some "g")) c10ArgDef)
      Context.init (some "\"X\" on")).2.1 = []
    ∧ (execute env0 1 (CLIElem.argument "h" (CLIElem.action "c" (some "g")) c10ArgDef)
      Context.init (some "\"X\" on")).2.2.isSome = true :=
  c10_validation_failure_no_binding env0 0 "h" (CLIElem.action "c" (some "g")) c10ArgDef
    Context.init "\"X\" on" "\"X\"" (some "on")
    { msg := "Unknown light-name name", arg_val := some "X" }
    (by decide) (by decide) rfl rfl

/-! ## Claim C7: completion silently ignores validation failures -/

/-- Claim C7: during completion with a remainder present, a validation
failure of the current token is silently ignored — the result is exactly
the wrapped child's completion of the remainder under the unchanged
context (no binding is written, and no completion path reports anything
to the user). -/
theorem c7_completion_ignores_validation_failure (env : Env) (fuel : Nat) (h : String)
    (elem : CLIElem) (argdef : ArgumentDef) (ctx : Context) (line arg rem : String)
    (e : ArgError)
    (hsplit : argdef.splitline ctx line = (arg, some rem))
    (hproc : argdef.process ctx arg = Except.error e) :
    complete env (fuel+1) (CLIElem.argument h elem argdef) ctx line =
      complete env fuel elem ctx rem := by
  simp [complete, hsplit, hproc]

/-- Witness for C7: completing `C x` through the id contract (token `C`
is invalid) still recurses into the child with remainder `x` and the
original context. -/
theorem c7_witness :
    complete env0 1 (CLIElem.argument "h" (CLIElem.action "c" (some "g")) c5ArgDef)
      Context.init "C x" =
      complete env0 0 (CLIElem.action "c" (some "g")) Context.init "x" :=
  c7_completion_ignores_validation_failure env0 0 "h" (CLIElem.action "c" (some "g"))
    c5ArgDef Context.init "C x" "C" "x" { msg := "Unknown light-id ID", arg_val := none }
    rfl rfl

/-! ## Claim C6: the pipe verifies the executable before spawning -/

/-- Claim C6: in a piped execution whose wrapped action completed without
raising and without itself spawning, the first whitespace-separated word
of the bound `shell-cmd` argument is checked against the search path
before any spawn; when it does not resolve, a recoverable `not found`
`CommandError` is reported and the event trace contains no spawn. -/
theorem c6_pipe_checks_which_before_spawn (env : Env) (fuel : Nat) (inner : CLIElem)
    (ctx ctx1 : Context) (evs : List Event) (scmd w : String)
    (hexec : execute env fuel inner ctx none = (ctx1, evs, none))
    (hnospawn : evs.all (fun ev => !is_spawn ev) = true)
    (hcmd : lookupAssoc ctx1.args "shell-cmd" = some (Value.str scmd))
    (hword : firstWord scmd = some w)
    (hwhich : env.which w = false) :
    execute env (fuel+1) (CLIElem.pipeAction inner) ctx none =
      (ctx1, evs.filter (fun ev => !ev.isPrint),
       some (Exc.cmdError ("Shell command \x27" ++ w ++ "\x27 not found")))
    ∧ ((execute env (fuel+1) (CLIElem.pipeAction inner) ctx none).2.1.all
        (fun ev => !is_spawn ev) = true) := by
  have h1 : execute env (fuel+1) (CLIElem.pipeAction inner) ctx none =
      (ctx1, evs.filter (fun ev => !ev.isPrint),
       some (Exc.cmdError ("Shell command \x27" ++ w ++ "\x27 not found"))) := by
    simp [execute, pipe_post, hexec, hcmd, hword, hwhich]
  refine ⟨h1, ?_⟩
  rw [h1]
  simp only [List.all_eq_true] at hnospawn ⊢
  intro ev hev
  exact hnospawn ev (List.mem_of_mem_filter hev)

/-- A context in which the pipe argument has already bound an
unresolvable shell command. -/
def c6Ctx : Context :=
  { kws := [], args := [("shell-cmd", Value.str "nosuchcmd -l")], end_flag := false }

/-- Witness for C6: under `env0` (nothing resolves), the piped execution
reports `Shell command 'nosuchcmd' not found` and spawns nothing. -/
theorem c6_witness :
    execute env0 2 (CLIElem.pipeAction (CLIElem.action "x" (some "f"))) c6Ctx none =
      (c6Ctx, [Event.invoke "f"].filter (fun ev => !ev.isPrint),
       some (Exc.cmdError "Shell command \x27nosuchcmd\x27 not found"))
    ∧ ((execute env0 2 (CLIElem.pipeAction (CLIElem.action "x" (some "f"))) c6Ctx none).2.1.all
        (fun ev => !is_spawn ev) = true) :=
  c6_pipe_checks_which_before_spawn env0 1 (CLIElem.action "x" (some "f")) c6Ctx c6Ctx
    [Event.invoke "f"] "nosuchcmd -l" "nosuchcmd" rfl (by decide) rfl rfl rfl

/-! ## Claim C9: a prefix of `help` dispatches into the unbound action -/

/-- Claim C9: at a compiled top-level List (with the synthetic `help`
keyword installed), a line whose first token is a strict prefix of
`help`, uniquely matching it — such as the single line `h` — is not
intercepted by the read loop (only the full word `help` has a `do_help`
hook), prefix-matches into the synthetic `help` keyword whose Action has
no bound handler, and invoking it raises an uncaught `TypeError` instead
of rendering help; the full word `help` is rewritten to a `?` dispatch. -/
theorem c9_prefix_help_uncaught (env : Env) (fuel : Nat) (h : String)
    (elems0 : List (Option String × CLIElem))
    (hmiss : lookupAssoc (updateAssoc elems0 (some "help") help_action) (some "h") = none)
    (hmatch : get_matches (updateAssoc elems0 (some "help") help_action) (some "h")
        = [some "help"]) :
    onecmd env (fuel+2) (install_help (CLIElem.list h elems0)) "h" =
      ({ Context.init with kws := [some "help"] }, [],
       some (Exc.uncaught "TypeError: \x27NoneType\x27 object is not callable"))
    ∧ onecmd env (fuel+2) (install_help (CLIElem.list h elems0)) "help" =
        execute env (fuel+2) (install_help (CLIElem.list h elems0)) Context.init
          (some "?") := by
  constructor
  · show dispatch_line env (fuel+2) (install_help (CLIElem.list h elems0)) "h" = _
    have hsplit : clist_splitline "h" = ("h", none) := rfl
    simp only [help_action] at hmiss hmatch
    have hlk := lookupAssoc_update_self elems0 (some "help")
      (CLIElem.action "Display command help" none)
    simp [dispatch_line, install_help, add_keyword, help_action, execute, hsplit, hmiss,
      hmatch, hlk, run_action, Context.init]
  · rfl

def c9Elems : List (Option String × CLIElem) :=
  [(some "show", CLIElem.action "s" (some "f1")),
   (some "light", CLIElem.action "l" (some "f2")),
   (some "group", CLIElem.action "g" (some "f3")),
   (some "exit", CLIElem.action "e" (some "f4"))]

/-- Witness for C9 at a huecon-like top level. -/
theorem c9_witness :
    onecmd env0 10 (install_help (CLIElem.list "Main commands" c9Elems)) "h" =
      ({ Context.init with kws := [some "help"] }, [],
       some (Exc.uncaught "TypeError: \x27NoneType\x27 object is not callable"))
    ∧ onecmd env0 10 (install_help (CLIElem.list "Main commands" c9Elems)) "help" =
        execute env0 10 (install_help (CLIElem.list "Main commands" c9Elems)) Context.init
          (some "?") :=
  c9_prefix_help_uncaught env0 8 "Main commands" c9Elems rfl (by decide)

/-! ## Claim C4 amended: unique-prefix dispatch for space-free keywords -/

/-- Claim C4 amended: for a non-empty typed token other than `?` that is
not an exact keyword but is a prefix of exactly one (non-absence) keyword
containing no space, dispatch is identical to typing that keyword in
full: both append the full keyword (not the typed token) to the keyword
trail exactly once and recurse into that keyword's child with the same
remainder — both with and without trailing input. -/
theorem c4_unique_prefix_dispatch (env : Env) (fuel : Nat) (h : String)
    (elems : List (Option String × CLIElem)) (ctx : Context) (tok rest kw : String)
    (e : CLIElem)
    (htok0 : tok ≠ "") (htokq : tok ≠ "?") (htoksp : ' ' ∉ tok.data)
    (hkwsp : ' ' ∉ kw.data)
    (hmiss : lookupAssoc elems (some tok) = none)
    (hmatch : get_matches elems (some tok) = [some kw])
    (hkw : lookupAssoc elems (some kw) = some e) :
    (execute env (fuel+1) (CLIElem.list h elems) ctx (some (tok ++ " " ++ rest)) =
       execute env fuel e { ctx with kws := ctx.kws ++ [some kw] } (some (pyLstrip rest)))
    ∧ (execute env (fuel+1) (CLIElem.list h elems) ctx (some (kw ++ " " ++ rest)) =
       execute env fuel e { ctx with kws := ctx.kws ++ [some kw] } (some (pyLstrip rest)))
    ∧ (execute env (fuel+1) (CLIElem.list h elems) ctx (some tok) =
       execute env fuel e { ctx with kws := ctx.kws ++ [some kw] } none)
    ∧ (execute env (fuel+1) (CLIElem.list h elems) ctx (some kw) =
       execute env fuel e { ctx with kws := ctx.kws ++ [some kw] } none) := by
  have hpre : pyStartsWith kw tok = true := by
    have hm : some kw ∈ get_matches elems (some tok) := by
      rw [hmatch]
      exact List.mem_singleton.mpr rfl
    rw [get_matches] at hm
    have := (List.mem_filter.mp hm).2
    simpa using this
  have hdata : tok.data <+: kw.data := by
    have := (List.isPrefixOf_iff_prefix).mp hpre
    exact this
  have htokd : tok.data ≠ [] := by
    intro hnil
    apply htok0
    have := str_mk_data tok
    rw [hnil] at this
    exact this.symm
  have hkw0 : kw ≠ "" := by
    intro hk
    rw [hk] at hdata
    have : tok.data = [] := List.prefix_nil.mp hdata
    exact htokd this
  have hkwq : kw ≠ "?" := by
    intro hk
    rw [hk] at hdata
    have hlen : tok.data.length ≤ 1 := hdata.length_le
    have hpos : 0 < tok.data.length := List.length_pos.mpr htokd
    have hone : tok.data.length = 1 := Nat.le_antisymm hlen hpos
    have : tok.data = ("?" : String).data := hdata.eq_of_length hone
    apply htokq
    have h2 := str_mk_data tok
    rw [this] at h2
    exact h2.symm.trans (str_mk_data "?")
  refine ⟨?_, ?_, ?_, ?_⟩
  · simp [execute, clist_splitline_append tok rest htoksp, htok0, htokq, hmiss, hmatch, hkw]
  · simp [execute, clist_splitline_append kw rest hkwsp, hkw0, hkwq, hkw]
  · simp [execute, clist_splitline_nospace tok htoksp, htok0, htokq, hmiss, hmatch, hkw]
  · simp [execute, clist_splitline_nospace kw hkwsp, hkw0, hkwq, hkw]

def c4wElems : List (Option String × CLIElem) := [(some "show", CLIElem.action "s" (some "f"))]

/-- Witness for C4: `sh x` dispatches exactly like `show x`. -/
theorem c4_witness :
    (execute env0 3 (CLIElem.list "h" c4wElems) Context.init (some ("sh" ++ " " ++ "x")) =
       execute env0 2 (CLIElem.action "s" (some "f"))
         { Context.init with kws := Context.init.kws ++ [some "show"] } (some (pyLstrip "x")))
    ∧ (execute env0 3 (CLIElem.list "h" c4wElems) Context.init (some ("show" ++ " " ++ "x")) =
       execute env0 2 (CLIElem.action "s" (some "f"))
         { Context.init with kws := Context.init.kws ++ [some "show"] } (some (pyLstrip "x")))
    ∧ (execute env0 3 (CLIElem.list "h" c4wElems) Context.init (some "sh") =
       execute env0 2 (CLIElem.action "s" (some "f"))
         { Context.init with kws := Context.init.kws ++ [some "show"] } none)
    ∧ (execute env0 3 (CLIElem.list "h" c4wElems) Context.init (some "show") =
       execute env0 2 (CLIElem.action "s" (some "f"))
         { Context.init with kws := Context.init.kws ++ [some "show"] } none) :=
  c4_unique_prefix_dispatch env0 2 "h" c4wElems Context.init "sh" "x" "show"
    (CLIElem.action "s" (some "f")) (by decide) (by decide) (by decide) (by decide)
    rfl (by decide) rfl

/-! ## Claim C3 amended: splice round-trip machinery -/

theorem missing_arg_not_unknown (nm : String) :
    pyStartsWith ("!! Missing <" ++ nm ++ "> argument") "!! Unknown keyword: " = false := by
  unfold pyStartsWith
  rw [String.data_append, String.data_append]
  have e1 : "!! Missing <".data = '!' :: '!' :: ' ' :: 'M' :: "issing <".data := rfl
  have e2 : "!! Unknown keyword: ".data
      = '!' :: '!' :: ' ' :: 'U' :: "nknown keyword: ".data := rfl
  rw [e1, e2]
  have f1 : ('U' == 'M') = false := rfl
  simp [List.isPrefixOf, List.cons_append, f1]

theorem shell_not_invalid (w : String) :
    pyStartsWith ("Shell command \x27" ++ w ++ "\x27 not found") "Invalid " = false := by
  unfold pyStartsWith
  rw [String.data_append, String.data_append]
  have e1 : "Shell command \x27".data = 'S' :: "hell command \x27".data := rfl
  have e2 : "Invalid ".data = 'I' :: "nvalid ".data := rfl
  rw [e1, e2]
  have f1 : ('I' == 'S') = false := rfl
  simp [List.isPrefixOf, List.cons_append, f1]

/-- `pipe_post` preserves acceptance: captured prints are dropped, and
the only errors it can add are a `KeyError`-class uncaught one, or the
`not found` command error, none of which are invalid-argument reports. -/
theorem accepts_pipe_post (env : Env) (r : Context × List Event × Option Exc)
    (hr : accepts r) : accepts (pipe_post env r) := by
  obtain ⟨rc, revs, rexc⟩ := r
  obtain ⟨hev, hexc⟩ := hr
  have hkept : ∀ ev ∈ revs.filter (fun ev => !ev.isPrint), unknown_kw_print ev = false := by
    intro ev hmem
    have hnp := (List.mem_filter.mp hmem).2
    cases ev with
    | print s => simp [Event.isPrint] at hnp
    | invoke f => rfl
    | spawn c i => rfl
    | columnize v => rfl
  cases rexc with
  | some e =>
    refine ⟨?_, ?_⟩
    · simpa [pipe_post] using hkept
    · simpa [pipe_post] using hexc
  | none =>
    cases hl : lookupAssoc rc.args "shell-cmd" with
    | none =>
      refine ⟨?_, ?_⟩
      · simpa [pipe_post, hl] using hkept
      · simp [pipe_post, hl, invalid_arg_exc]
    | some v =>
      cases v with
      | obj o =>
        refine ⟨?_, ?_⟩
        · simpa [pipe_post, hl] using hkept
        · simp [pipe_post, hl, invalid_arg_exc]
      | str cmd =>
        cases hw : firstWord cmd with
        | none =>
          refine ⟨?_, ?_⟩
          · simpa [pipe_post, hl, hw] using hkept
          · simp [pipe_post, hl, hw, invalid_arg_exc]
        | some w =>
          by_cases hwh : env.which w = true
          · refine ⟨?_, ?_⟩
            · intro ev hmem
              have hm2 : ev ∈ revs.filter (fun ev => !ev.isPrint) ++
                  [Event.spawn cmd (buf_of revs)] := by
                simpa [pipe_post, hl, hw, hwh] using hmem
              rcases List.mem_append.mp hm2 with hh | hh
              · exact hkept ev hh
              · rcases List.mem_singleton.mp hh with rfl
                rfl
            · simp [pipe_post, hl, hw, hwh, invalid_arg_exc]
          · simp only [Bool.not_eq_true] at hwh
            refine ⟨?_, ?_⟩
            · simpa [pipe_post, hl, hw, hwh] using hkept
            · simp [pipe_post, hl, hw, hwh, invalid_arg_exc, shell_not_invalid]

/-- The dispatch of an empty (or absent) remaining line never reports an
unknown keyword and never raises an invalid-argument error, for any tree
node and any context, as long as handlers print no unknown-keyword-shaped
lines. -/
theorem accepts_exec_empty (env : Env) (hclean : clean_handlers env) :
    ∀ fuel : Nat, ∀ e : CLIElem, ∀ ctx : Context,
      accepts (execute env fuel e ctx none) ∧ accepts (execute env fuel e ctx (some "")) := by
  intro fuel
  induction fuel with
  | zero =>
    intro e ctx
    exact ⟨⟨by simp [execute], rfl⟩, ⟨by simp [execute], rfl⟩⟩
  | succ fuel ih =>
    intro e ctx
    cases e with
    | list h elems =>
      have hsplit0 : clist_splitline "" = ("", none) := rfl
      constructor
      · cases hl : lookupAssoc elems none with
        | some e2 =>
          simpa [execute, hl] using (ih e2 { ctx with kws := ctx.kws ++ [none] }).1
        | none =>
          refine ⟨?_, ?_⟩
          · intro ev hmem
            simp [execute, hl] at hmem
            subst hmem
            decide
          · simp [execute, hl, invalid_arg_exc]
      · cases hl : lookupAssoc elems none with
        | some e2 =>
          simpa [execute, hsplit0, hl] using
            (ih e2 { ctx with kws := ctx.kws ++ [none] }).1
        | none =>
          refine ⟨?_, ?_⟩
          · intro ev hmem
            simp [execute, hsplit0, hl] at hmem
            subst hmem
            decide
          · simp [execute, hsplit0, hl, invalid_arg_exc]
    | action h fn =>
      have hrun : accepts (run_action env fn ctx) := by
        cases fn with
        | none => exact ⟨by simp [run_action], rfl⟩
        | some f =>
          refine ⟨?_, rfl⟩
          intro ev hmem
          simp only [run_action, List.mem_cons] at hmem
          rcases hmem with rfl | hmem
          · rfl
          · obtain ⟨s, hs, rfl⟩ := List.mem_map.mp hmem
            simpa [unknown_kw_print] using hclean f ctx s hs
      exact ⟨by simpa [execute] using hrun, by simpa [execute] using hrun⟩
    | argument h elem argdef =>
      constructor
      · refine ⟨?_, rfl⟩
        intro ev hmem
        simp [execute] at hmem
        subst hmem
        simpa [unknown_kw_print] using missing_arg_not_unknown argdef.name
      · refine ⟨?_, rfl⟩
        intro ev hmem
        simp [execute] at hmem
        subst hmem
        simpa [unknown_kw_print] using missing_arg_not_unknown argdef.name
    | pipeAction inner =>
      have hp := accepts_pipe_post env (execute env fuel inner ctx none) (ih inner ctx).1
      exact ⟨by simpa [execute] using hp, by simpa [execute] using hp⟩

/-- Dispatching a keyword completion `c ++ " "` (for a space-free,
non-`?` keyword of the List) never yields unknown-keyword or
invalid-argument errors. -/
theorem accepts_exec_candidate (env : Env) (fuel : Nat) (h : String)
    (elems : List (Option String × CLIElem)) (ctx2 : Context) (c : String)
    (hclean : clean_handlers env) (hcsp : ' ' ∉ c.data) (hcq : c ≠ "?")
    (hmem : some c ∈ elems.map Prod.fst) :
    accepts (execute env (fuel+1) (CLIElem.list h elems) ctx2 (some (c ++ " "))) := by
  have hsp := clist_splitline_append_space c hcsp
  by_cases hc0 : c = ""
  · subst hc0
    have hsp2 : clist_splitline " " = ("", some "") := rfl
    cases hl : lookupAssoc elems none with
    | some e2 =>
      simpa [execute, hsp2, hl] using
        (accepts_exec_empty env hclean fuel e2 { ctx2 with kws := ctx2.kws ++ [none] }).2
    | none =>
      refine ⟨?_, ?_⟩
      · intro ev hmem2
        simp [execute, hsp2, hl] at hmem2
        subst hmem2
        decide
      · simp [execute, hsp2, hl, invalid_arg_exc]
  · have hsome := lookupAssoc_isSome_of_mem elems (some c) hmem
    obtain ⟨e2, he2⟩ := Option.isSome_iff_exists.mp hsome
    simpa [execute, hsp, hc0, hcq, he2] using
      (accepts_exec_empty env hclean fuel e2 { ctx2 with kws := ctx2.kws ++ [some c] }).2

/-- Claim C3 amended: every completion string a List node returns for a
space-free partial token, when substituted for that token (the line
editor replaces the word being completed; it does not append) and
re-submitted to the same node's execute under a fresh context, is
accepted without an unknown-keyword or invalid-argument error — provided
the List's keywords contain no spaces and are not `?`, and handlers print
no unknown-keyword-shaped lines. -/
theorem c3_completion_splice_roundtrip (env : Env) (fuel : Nat) (h : String)
    (elems : List (Option String × CLIElem)) (ctx ctx2 : Context) (tok cand : String)
    (hclean : clean_handlers env)
    (hkeys : ∀ c : String, some c ∈ elems.map Prod.fst → ' ' ∉ c.data ∧ c ≠ "?")
    (htok : ' ' ∉ tok.data)
    (hcand : cand ∈ ((complete env (fuel+1) (CLIElem.list h elems) ctx tok).2.getD [])) :
    accepts (execute env (fuel+1) (CLIElem.list h elems) ctx2 (some cand)) := by
  have hsplit := clist_splitline_nospace tok htok
  simp only [complete, hsplit, Option.getD_some] at hcand
  have hfilter : ∀ x : String,
      x ∈ (elems.map Prod.fst).filterMap (fun k =>
        match k with
        | some c => if pyStartsWith c tok then some (c ++ " ") else none
        | none => none) →
      accepts (execute env (fuel+1) (CLIElem.list h elems) ctx2 (some x)) := by
    intro x hx
    obtain ⟨k, hk_mem, hk_eq⟩ := List.mem_filterMap.mp hx
    cases k with
    | none => simp at hk_eq
    | some c =>
      by_cases hpc : pyStartsWith c tok = true
      · simp only [hpc, if_true, Option.some.injEq] at hk_eq
        subst hk_eq
        obtain ⟨hcsp, hcq⟩ := hkeys c hk_mem
        exact accepts_exec_candidate env fuel h elems ctx2 c hclean hcsp hcq hk_mem
      · simp only [Bool.not_eq_true] at hpc
        simp [hpc] at hk_eq
  by_cases hcond : (tok = "" && (lookupAssoc elems none).isSome) = true
  · rw [if_pos hcond] at hcand
    rcases List.mem_append.mp hcand with hx | hx
    · exact hfilter cand hx
    · rcases List.mem_singleton.mp hx with rfl
      have hcond2 := hcond
      simp only [Bool.and_eq_true, decide_eq_true_eq] at hcond2
      have hns := hcond2.2
      obtain ⟨e2, he2⟩ := Option.isSome_iff_exists.mp hns
      have hsplit0 : clist_splitline "" = ("", none) := rfl
      simpa [execute, hsplit0, he2] using
        (accepts_exec_empty env hclean fuel e2 { ctx2 with kws := ctx2.kws ++ [none] }).1
  · rw [if_neg hcond] at hcand
    exact hfilter cand hcand

/-- Witness for C3 amended: the completion `show ` for partial `sh`,
substituted for the typed word, dispatches cleanly. -/
theorem c3_witness :
    accepts (execute env0 3 c3List Context.init (some "show ")) := by
  have hclean : clean_handlers env0 := by
    intro f c s hs
    simp [env0] at hs
  have hkeys : ∀ c : String,
      some c ∈ ([(some "show", CLIElem.action "ha" (some "act"))].map
        (Prod.fst (α := Option String) (β := CLIElem))) → ' ' ∉ c.data ∧ c ≠ "?" := by
    intro c hc
    simp at hc
    subst hc
    exact ⟨by decide, by decide⟩
  have := c3_completion_splice_roundtrip env0 2 "h"
    [(some "show", CLIElem.action "ha" (some "act"))] Context.init Context.init
    "sh" "show " hclean hkeys (by decide) (by decide)
  simpa [c3List] using this

end HueCon
